import Mathlib

/-!
Shallow embedding of `src/lib/actions/DashDeploy.js` (the Serverless
"dash deploy" action): local function/endpoint/event definitions are
reconciled against the deployed API Gateway resources, orphaned remote
methods are computed, a flat choice list is offered to the operator, and
the selection is dispatched to four external deploy/remove actions.
-/

set_option autoImplicit false

namespace DashDeploy

/-! ## Data model -/

/-- A locally declared HTTP endpoint of a function (`EndpointDef`). -/
structure EndpointDef where
  path : String
  method : String
  deriving Repr, DecidableEq

/-- A locally declared event trigger of a function (`EventDef`). -/
structure EventDef where
  name : String
  type : String
  deriving Repr, DecidableEq

/-- A locally declared function together with its ordered endpoints and
events (`FunctionDef`). -/
structure FunctionDef where
  name : String
  endpoints : List EndpointDef
  events : List EventDef
  deriving Repr, DecidableEq

/-- A deployed API Gateway resource: a path segment plus the keys of its
`resourceMethods` mapping, in the order the remote object enumerates
them.  JavaScript object keys are unique, which theorems take as a
`Nodup` hypothesis where it matters. -/
structure DeployedResource where
  pathPart : String
  resourceMethods : List String
  deriving Repr, DecidableEq

/-! ## OrphanDetector (`_initNotExistEndpoints`, lines 187-240) -/

/-- The `every`-with-break loop of `_initNotExistEndpoints`: the first
deployed resource whose `pathPart` equals the function's name, if any
(`deployedResource` stays `false` in the source when nothing matches). -/
def findDeployedResource (items : List DeployedResource) (name : String) :
    Option DeployedResource :=
  items.find? (fun item => item.pathPart == name)

/-- The orphan key format `"<pathPart>~<method>"` pushed at line 230. -/
def orphanKey (pathPart method : String) : String :=
  pathPart ++ "~" ++ method

/-- The per-function body of `_initNotExistEndpoints`: every method key of
the matched deployed resource with no case-sensitively equal local
endpoint method becomes an orphan key.  When no resource matches,
`for (let method in false.resourceMethods)` iterates over `undefined`,
i.e. zero times, so the result is `[]` and nothing throws. -/
def funcNotExistEndpoints (items : List DeployedResource) (func : FunctionDef) :
    List String :=
  match findDeployedResource items func.name with
  | none => []
  | some dr =>
    (dr.resourceMethods.filter
        (fun method => !(func.endpoints.any (fun e => e.method == method)))).map
      (fun method => orphanKey dr.pathPart method)

/-- The loop of `_initNotExistEndpoints`: one orphan list per local function, pushed in
the local-function order. -/
def _initNotExistEndpoints (localFunctions : List FunctionDef)
    (items : List DeployedResource) : List (List String) :=
  localFunctions.map (funcNotExistEndpoints items)

/-! ## SelectionModel (`_prompt`, lines 246-335) -/

/-- The `type` field of a selectable choice object. -/
inductive ChoiceType where
  | function
  | endpoint
  | event
  deriving Repr, DecidableEq

/-- One entry of the `choices` array built by `_prompt`: either a
non-selectable spacer (only a `spacer` field in the source) or a
selectable item with `value`, `label`, `type` and the `removal` flag
(absent in the source except on orphan-removal entries, i.e. `false`). -/
inductive Choice where
  | spacer (name : String)
  | item (value : String) (label : String) (ctype : ChoiceType) (removal : Bool)
  deriving Repr, DecidableEq

/-- Whether a choice is a grouping-header spacer. -/
def Choice.isSpacer : Choice → Bool
  | .spacer _ => true
  | .item _ _ _ _ => false

/-- The block of choices pushed for the function at position `i`:
spacer, function choice, endpoint choices, orphan-removal choices
(from `notExistEndpoints[i]`, which lodash iterates as empty when the
index is out of range), event choices.  The removal label reproduces
`endpoint.split("~")` with JavaScript's `undefined` rendering for a
missing second component. -/
def funcChoices (notExistEndpoints : List (List String)) (i : Nat)
    (func : FunctionDef) : List Choice :=
  [Choice.spacer func.name,
   Choice.item func.name ("function - " ++ func.name) ChoiceType.function false]
  ++ func.endpoints.map (fun e =>
      Choice.item (e.path ++ "~" ++ e.method)
        ("endpoint - " ++ e.path ++ " - " ++ e.method) ChoiceType.endpoint false)
  ++ (notExistEndpoints.getD i []).map (fun ep =>
      Choice.item ep
        ("x endpoint removal - " ++ (ep.splitOn "~").getD 0 "undefined"
          ++ " - " ++ (ep.splitOn "~").getD 1 "undefined")
        ChoiceType.endpoint true)
  ++ func.events.map (fun ev =>
      Choice.item ev.name ("event - " ++ ev.name ++ " - " ++ ev.type)
        ChoiceType.event false)

/-- The indexed `_.each` loop of `_prompt` that pushes each function's
block onto the shared `choices` array. -/
def buildChoicesAux (notExistEndpoints : List (List String)) :
    Nat → List FunctionDef → List Choice
  | _, [] => []
  | i, f :: rest =>
    funcChoices notExistEndpoints i f ++ buildChoicesAux notExistEndpoints (i + 1) rest

/-- The full choice list built by `_prompt` before the select prompt. -/
def buildChoices (functions : List FunctionDef)
    (notExistEndpoints : List (List String)) : List Choice :=
  buildChoicesAux notExistEndpoints 0 functions

/-- Number of selectable (non-spacer) entries in a choice list. -/
def selectableCount (cs : List Choice) : Nat :=
  (cs.filter (fun c => !c.isSpacer)).length

/-! ## Selection partition (`_prompt` continuation, lines 313-334) -/

/-- The four selected-* sequences accumulated on `evt.options`. -/
structure SelectionResult where
  selectedFunctions : List String
  selectedEndpoints : List String
  selectedEvents : List String
  selectedRemovalEndpoints : List String
  deriving Repr, DecidableEq

/-- The empty selection set up by `dashDeploy` (lines 98-101). -/
def emptySelection : SelectionResult := ⟨[], [], [], []⟩

/-- One iteration of the partition loop over the prompt's returned items:
a non-toggled item is skipped; a toggled removal-flagged endpoint goes to
`selectedRemovalEndpoints` (then `continue`); otherwise the `type` field
routes the value; a spacer has no `type`, so every branch misses it. -/
def partitionStep (acc : SelectionResult) : Choice × Bool → SelectionResult
  | (_, false) => acc
  | (Choice.spacer _, true) => acc
  | (Choice.item v _ t removal, true) =>
    match t, removal with
    | ChoiceType.endpoint, true =>
      { acc with selectedRemovalEndpoints := acc.selectedRemovalEndpoints ++ [v] }
    | ChoiceType.function, _ =>
      { acc with selectedFunctions := acc.selectedFunctions ++ [v] }
    | ChoiceType.endpoint, false =>
      { acc with selectedEndpoints := acc.selectedEndpoints ++ [v] }
    | ChoiceType.event, _ =>
      { acc with selectedEvents := acc.selectedEvents ++ [v] }

/-- The whole partition loop over the annotated items returned by the
select prompt. -/
def partitionSelection (items : List (Choice × Bool)) : SelectionResult :=
  items.foldl partitionStep emptySelection

/-! ## SelectionDispatcher (`_deploy`, lines 341-411)

Each stage is represented by its guard, the call it would make to the
external action and that action's result.  The embedding returns the
settlement status of the `_deploy` promise, the mutated `evt.data`
(mutations on `_this.evt` survive a later rejection) and the ordered
trace of external calls actually made. -/

/-- An error rejected by a collaborator (`SError` carries a message). -/
structure SError where
  message : String
  deriving Repr, DecidableEq

/-- A per-name result mapping returned by a deploy/remove action. -/
abbrev ResultMap := List (String × String)

/-- The four external actions a dispatch stage can invoke. -/
inductive StageOp where
  | functionDeploy
  | endpointDeploy
  | eventDeploy
  | endpointRemove
  deriving Repr, DecidableEq

/-- One external call: which action, with which options.  `skipLocal` is
`none` for the three deploy stages (the source passes no such key) and
`some true` for endpoint removal. -/
structure CallRecord where
  op : StageOp
  stage : String
  region : String
  names : List String
  skipLocal : Option Bool
  deriving Repr, DecidableEq

/-- The four outcome mappings on `evt.data` (lines 104-107). -/
structure DeployData where
  deployedFunctions : ResultMap
  deployedEndpoints : ResultMap
  deployedEvents : ResultMap
  removedEndpoints : ResultMap
  deriving Repr, DecidableEq

/-- The `evt.data` record as initialised by `dashDeploy`: four empty mappings. -/
def initialDeployData : DeployData := ⟨[], [], [], []⟩

/-- Settlement of the promise returned by `_deploy`: resolved, rejected
with an error, or never settled (`pending`). -/
inductive PromiseStatus where
  | resolved
  | rejected (e : SError)
  | pending
  deriving Repr, DecidableEq

/-- The external deploy/remove collaborators
(`S.actions.functionDeploy` etc.), each either returning its
`evt.data.deployed`/`evt.data.removed` mapping or rejecting. -/
structure ExternalActions where
  functionDeploy : String → String → List String → Except SError ResultMap
  endpointDeploy : String → String → List String → Except SError ResultMap
  eventDeploy : String → String → List String → Except SError ResultMap
  endpointRemove : String → String → List String → Bool → Except SError ResultMap

/-- Stage 1 of `_deploy` runs inside a `new BbPromise(function(resolve,
reject) ...)` executor whose rejection path never calls `resolve` or
`reject`: when `functionDeploy` rejects, the executor's inner chain
rejects unhandled and the outer promise stays pending forever. -/
def runFirstStage (call : CallRecord) (res : Except SError ResultMap)
    (upd : DeployData → ResultMap → DeployData) (guardEmpty : Bool)
    (d0 : DeployData) : PromiseStatus × DeployData × List CallRecord :=
  if guardEmpty then (PromiseStatus.resolved, d0, [])
  else
    match res with
    | Except.ok m => (PromiseStatus.resolved, upd d0 m, [call])
    | Except.error _ => (PromiseStatus.pending, d0, [call])

/-- A later `.then` stage of `_deploy`: it runs only when the chain so
far is resolved; an empty selection skips the external call; a rejection
propagates and aborts the remaining stages. -/
def runStage (call : CallRecord) (res : Except SError ResultMap)
    (upd : DeployData → ResultMap → DeployData) (guardEmpty : Bool) :
    PromiseStatus × DeployData × List CallRecord →
      PromiseStatus × DeployData × List CallRecord
  | (PromiseStatus.resolved, d, tr) =>
    if guardEmpty then (PromiseStatus.resolved, d, tr)
    else
      match res with
      | Except.ok m => (PromiseStatus.resolved, upd d m, tr ++ [call])
      | Except.error e => (PromiseStatus.rejected e, d, tr ++ [call])
  | other => other

/-- The body of `_deploy`: the four dispatch stages chained in source order
(function deploy, endpoint deploy, event deploy, endpoint removal), each
guarded by an emptiness check on its selected-* sequence; removal is
called with `skipLocal: true`. -/
def _deploy (acts : ExternalActions) (stage region : String)
    (sel : SelectionResult) (d0 : DeployData) :
    PromiseStatus × DeployData × List CallRecord :=
  runStage
    ⟨StageOp.endpointRemove, stage, region, sel.selectedRemovalEndpoints, some true⟩
    (acts.endpointRemove stage region sel.selectedRemovalEndpoints true)
    (fun d m => { d with removedEndpoints := m })
    sel.selectedRemovalEndpoints.isEmpty
    (runStage
      ⟨StageOp.eventDeploy, stage, region, sel.selectedEvents, none⟩
      (acts.eventDeploy stage region sel.selectedEvents)
      (fun d m => { d with deployedEvents := m })
      sel.selectedEvents.isEmpty
      (runStage
        ⟨StageOp.endpointDeploy, stage, region, sel.selectedEndpoints, none⟩
        (acts.endpointDeploy stage region sel.selectedEndpoints)
        (fun d m => { d with deployedEndpoints := m })
        sel.selectedEndpoints.isEmpty
        (runFirstStage
          ⟨StageOp.functionDeploy, stage, region, sel.selectedFunctions, none⟩
          (acts.functionDeploy stage region sel.selectedFunctions)
          (fun d m => { d with deployedFunctions := m })
          sel.selectedFunctions.isEmpty
          d0)))

/-! ## ResourceInventory (`_getDeployedResources`, lines 163-181) -/

/-- Paging helper: `pagesAux fuel l limit` splits `l` into consecutive pages of at most
`limit` elements, recursing on the fuel. -/
def pagesAux {α : Type} : Nat → List α → Nat → List (List α)
  | 0, _, _ => []
  | _, [], _ => []
  | fuel + 1, l, limit => l.take limit :: pagesAux fuel (l.drop limit) limit

/-- The consecutive pages, of at most `limit` elements each, of a remote
listing. -/
def pages {α : Type} (l : List α) (limit : Nat) : List (List α) :=
  pagesAux l.length l limit

/-- The provider-side collaborators consumed by
`_getDeployedResources`: the region variables, the project name,
`getApiByName`, and the remote resource listing per resolved API id
(with its possible request failure). -/
structure ProviderEnv where
  apiGatewayApiVar : String → String → Option String
  projectName : String
  getApiByName : String → String → String → Except SError String
  remoteResources : String → String → String → List DeployedResource
  listingFailure : String → Option SError

/-- Line 169: the region variable `apiGatewayApi` with `||` fallback to
the project name — a present-but-empty string is falsy in JavaScript and
also falls back. -/
def resolvedRestApiName (env : ProviderEnv) (stage region : String) : String :=
  match env.apiGatewayApiVar stage region with
  | some v => if v = "" then env.projectName else v
  | none => env.projectName

/-- Modelled from the spec: the provider request
`aws.request('APIGateway', 'getResources', \x7brestApiId, limit: 500\x7d, ...)`
is not part of this source file; per §4.1 it pages through the remote
resource listing, capped at `limit` items per call, until the full
collection for the stage and region is retrieved, or fails with a
`ProviderRequestError`. -/
def awsGetResources (env : ProviderEnv) (restApiId stage region : String)
    (limit : Nat) : Except SError (List DeployedResource) :=
  match env.listingFailure restApiId with
  | some e => Except.error e
  | none => Except.ok ((pages (env.remoteResources restApiId stage region) limit).flatten)

/-- The body of `_getDeployedResources`: resolve the REST API name, resolve it to an
id via `getApiByName`, then fetch the resource listing with page limit
500. -/
def _getDeployedResources (env : ProviderEnv) (stage region : String) :
    Except SError (List DeployedResource) :=
  match env.getApiByName (resolvedRestApiName env stage region) stage region with
  | Except.error e => Except.error e
  | Except.ok restApiId => awsGetResources env restApiId stage region 500

/-! ## Entry point (`dashDeploy`, lines 87-140) -/

/-- The options of the incoming event, before the defaults of lines
94-97 are applied. -/
structure Options where
  stage : Option String
  region : Option String
  aliasFunction : Option String
  aliasEndpoint : Option String
  aliasRestApi : Option String
  description : Option String
  deriving Repr, DecidableEq

/-- JavaScript default-assignment `x ? x : null` on a string option: a falsy value (absent or the
empty string) becomes `null`. -/
def normalizeOpt : Option String → Option String
  | some v => if v = "" then none else some v
  | none => none

/-- Everything `dashDeploy` leaves on the event object at the end of a
run: the resolved stage/region, the normalized alias options, the
untouched description, the choice list built for the prompt, the
selected-* sequences and `evt.data`. -/
structure EvtState where
  stage : Option String
  region : Option String
  aliasFunction : Option String
  aliasEndpoint : Option String
  aliasRestApi : Option String
  description : Option String
  deployedResources : List DeployedResource
  notExistEndpoints : List (List String)
  choices : List Choice
  selection : SelectionResult
  data : DeployData
  deriving Repr, DecidableEq

/-- Observable steps of one `dashDeploy` run, in execution order. -/
inductive Effect where
  | promptStage
  | promptRegion
  | remoteListing
  | orphanComputation
  | promptSelect
  | call (c : CallRecord)
  deriving Repr, DecidableEq

/-- All collaborators of one `dashDeploy` run: the interactivity flag,
the local functions in the current working directory, the three
interactive prompts, the provider reads and the four deploy/remove
actions. -/
structure Env where
  interactive : Bool
  localFunctions : List FunctionDef
  promptStage : Option String → String
  promptRegion : Option String → String → String
  promptSelect : List Choice → List (Choice × Bool)
  provider : ProviderEnv
  actions : ExternalActions

/-- The event state after the defaults of lines 90-107, before the
promise chain runs. -/
def initialEvtState (opts : Options) : EvtState where
  stage := normalizeOpt opts.stage
  region := opts.region
  aliasFunction := normalizeOpt opts.aliasFunction
  aliasEndpoint := normalizeOpt opts.aliasEndpoint
  aliasRestApi := normalizeOpt opts.aliasRestApi
  description := opts.description
  deployedResources := []
  notExistEndpoints := []
  choices := []
  selection := emptySelection
  data := initialDeployData

/-- The promise chain of `dashDeploy`: validate interactivity, prompt for stage and region,
fetch the deployed resources, compute the orphan lists, build and show
the choice list, partition the returned selection and dispatch it.  A
rejection anywhere skips every later `.then`; the effect trace records
what actually ran. -/
def dashDeploy (env : Env) (opts : Options) :
    PromiseStatus × EvtState × List Effect :=
  let st0 := initialEvtState opts
  if !env.interactive then
    (PromiseStatus.rejected ⟨"Sorry, this is only available in interactive mode"⟩,
      st0, [])
  else
    let stage := env.promptStage st0.stage
    let region := env.promptRegion st0.region stage
    let st1 := { st0 with stage := some stage, region := some region }
    match _getDeployedResources env.provider stage region with
    | Except.error e =>
      (PromiseStatus.rejected e, st1,
        [Effect.promptStage, Effect.promptRegion, Effect.remoteListing])
    | Except.ok resources =>
      let ns := _initNotExistEndpoints env.localFunctions resources
      let choices := buildChoices env.localFunctions ns
      let items := env.promptSelect choices
      let sel := partitionSelection items
      let r := _deploy env.actions stage region sel initialDeployData
      (r.1,
        { st1 with
            deployedResources := resources
            notExistEndpoints := ns
            choices := choices
            selection := sel
            data := r.2.1 },
        [Effect.promptStage, Effect.promptRegion, Effect.remoteListing,
         Effect.orphanComputation, Effect.promptSelect] ++ r.2.2.map Effect.call)

/-! ## Sample data used by the witnesses -/

/-- The spec's scenario function: `users` with a local `GET /users`
endpoint and one event. -/
def sampleFunc : FunctionDef :=
  ⟨"users", [⟨"users", "GET"⟩], [⟨"usersFeed", "schedule"⟩]⟩

/-- The spec's scenario resource: `users` deployed with `GET` and
`DELETE`. -/
def sampleResource : DeployedResource := ⟨"users", ["GET", "DELETE"]⟩

/-- External actions that all succeed with empty result mappings. -/
def okActions : ExternalActions where
  functionDeploy := fun _ _ _ => Except.ok [("users", "done")]
  endpointDeploy := fun _ _ _ => Except.ok []
  eventDeploy := fun _ _ _ => Except.ok []
  endpointRemove := fun _ _ _ _ => Except.ok [("users~DELETE", "removed")]

/-- External actions whose function-deploy stage rejects with a provider
request error. -/
def failingFunctionActions : ExternalActions where
  functionDeploy := fun _ _ _ => Except.error ⟨"ProviderRequestError"⟩
  endpointDeploy := fun _ _ _ => Except.ok []
  eventDeploy := fun _ _ _ => Except.ok []
  endpointRemove := fun _ _ _ _ => Except.ok []

/-! ## Claim theorems -/

/-- C1 (code bug evidence): with a non-empty function selection whose
external deploy rejects, `_deploy` invokes only the first stage — the
remaining stages are indeed aborted — but its promise ends `pending`,
not `rejected`: the stage-1 executor `new BbPromise(function(resolve,
reject))` never calls `reject` on the inner chain's failure, so the
error is swallowed instead of being propagated to the caller as the
claim requires. -/
theorem c1_stage1_failure_not_propagated :
    _deploy failingFunctionActions "dev" "us-east-1"
        ⟨["users"], ["users~GET"], [], ["users~DELETE"]⟩ initialDeployData
      = (PromiseStatus.pending, initialDeployData,
          [⟨StageOp.functionDeploy, "dev", "us-east-1", ["users"], none⟩]) := by
  rfl

/-- Index lookup into the orphan lists produced by
`_initNotExistEndpoints` is the per-function computation at that
position. -/
theorem initNotExist_getD (funcs : List FunctionDef)
    (items : List DeployedResource) (i : Nat) (hi : i < funcs.length) :
    (_initNotExistEndpoints funcs items).getD i []
      = funcNotExistEndpoints items (funcs.get ⟨i, hi⟩) := by
  simp [_initNotExistEndpoints, List.getD_eq_getElem?_getD,
    List.getElem?_eq_getElem, hi]

/-- Appending a method to the fixed `"<pathPart>~"` front is injective. -/
theorem orphanKey_injective (pathPart : String) :
    Function.Injective (orphanKey pathPart) := by
  intro a b h
  apply String.ext
  have h2 := congrArg String.data h
  simpa [orphanKey, String.data_append] using h2

/-- C2: for a local function at position `i` matched to a deployed
resource (same `pathPart` as the function's name), every method key of
the resource with a case-sensitively equal local endpoint method is
excluded from the orphan list at position `i`, every method key with no
match contributes `"<pathPart>~<method>"` exactly once, and the orphan
set has one list per local function, aligned by position. -/
theorem c2_orphan_membership (funcs : List FunctionDef)
    (items : List DeployedResource) (i : Nat) (hi : i < funcs.length)
    (dr : DeployedResource)
    (hdr : findDeployedResource items (funcs.get ⟨i, hi⟩).name = some dr)
    (hnd : dr.resourceMethods.Nodup) :
    (_initNotExistEndpoints funcs items).length = funcs.length ∧
    ∀ m ∈ dr.resourceMethods,
      ((∃ e ∈ (funcs.get ⟨i, hi⟩).endpoints, e.method = m) →
        orphanKey dr.pathPart m ∉ (_initNotExistEndpoints funcs items).getD i []) ∧
      ((∀ e ∈ (funcs.get ⟨i, hi⟩).endpoints, e.method ≠ m) →
        ((_initNotExistEndpoints funcs items).getD i []).count
          (orphanKey dr.pathPart m) = 1) := by
  refine ⟨by simp [_initNotExistEndpoints], ?_⟩
  intro m hm
  rw [initNotExist_getD funcs items i hi]
  unfold funcNotExistEndpoints
  rw [hdr]
  constructor
  · rintro ⟨e, he, hem⟩ hmem
    rw [List.mem_map] at hmem
    obtain ⟨m', hm', hkey⟩ := hmem
    have hmm : m' = m := orphanKey_injective dr.pathPart hkey
    subst hmm
    rw [List.mem_filter] at hm'
    have h2 := hm'.2
    simp only [Bool.not_eq_true', List.any_eq_false] at h2
    exact h2 e he (by simp [hem])
  · intro hnone
    have hpm : (!(funcs.get ⟨i, hi⟩).endpoints.any (fun e => e.method == m)) = true := by
      simp only [Bool.not_eq_true']
      rw [List.any_eq_false]
      intro e he
      simpa using hnone e he
    rw [List.count_map_of_injective _ _ (orphanKey_injective dr.pathPart)]
    exact (@List.count_filter String _ _
        (fun method => !((funcs.get ⟨i, hi⟩).endpoints.any fun e => e.method == method))
        m dr.resourceMethods hpm).trans
      (List.count_eq_one_of_mem hnd hm)

/-- Witness for C2 on the spec's scenario: `users` has deployed methods
`GET` and `DELETE`, locally only `GET`; `users~DELETE` appears exactly
once and `users~GET` is excluded. -/
theorem c2_orphan_membership_witness :
    (_initNotExistEndpoints [sampleFunc] [sampleResource]).length = 1 ∧
    ∀ m ∈ sampleResource.resourceMethods,
      ((∃ e ∈ ([sampleFunc].get ⟨0, by decide⟩).endpoints, e.method = m) →
        orphanKey sampleResource.pathPart m
          ∉ (_initNotExistEndpoints [sampleFunc] [sampleResource]).getD 0 []) ∧
      ((∀ e ∈ ([sampleFunc].get ⟨0, by decide⟩).endpoints, e.method ≠ m) →
        ((_initNotExistEndpoints [sampleFunc] [sampleResource]).getD 0 []).count
          (orphanKey sampleResource.pathPart m) = 1) :=
  c2_orphan_membership [sampleFunc] [sampleResource] 0 (by decide) sampleResource
    (by decide) (by decide)

/-- A spacer is a spacer. -/
@[simp] theorem isSpacer_spacer (s : String) : (Choice.spacer s).isSpacer = true := rfl

/-- A selectable item is not a spacer. -/
@[simp] theorem isSpacer_item (v l : String) (t : ChoiceType) (r : Bool) :
    (Choice.item v l t r).isSpacer = false := rfl

/-- Selectable-count distributes over concatenation. -/
theorem selectableCount_append (a b : List Choice) :
    selectableCount (a ++ b) = selectableCount a + selectableCount b := by
  simp [selectableCount, List.filter_append]

/-- One function's block contributes exactly `1 + endpoints + orphans +
events` selectable choices; the spacer is filtered out. -/
theorem selectableCount_funcChoices (ns : List (List String)) (i : Nat)
    (f : FunctionDef) :
    selectableCount (funcChoices ns i f)
      = 1 + f.endpoints.length + (ns.getD i []).length + f.events.length := by
  simp [funcChoices, selectableCount, List.filter_append, List.filter_map,
    Function.comp_def]
  omega

/-- The indexed push loop concatenates the per-function blocks in
function order. -/
theorem buildChoicesAux_eq_flatten (ns : List (List String)) :
    ∀ (fns : List FunctionDef) (i : Nat),
      buildChoicesAux ns i fns
        = ((fns.enumFrom i).map (fun p => funcChoices ns p.1 p.2)).flatten
  | [], _ => by simp [buildChoicesAux]
  | f :: rest, i => by
    simp [buildChoicesAux, List.enumFrom, buildChoicesAux_eq_flatten ns rest (i + 1)]

/-- C4: the number of selectable choices built by `buildChoices` is the
sum over functions of `1 + endpoints + orphans + events`; the flat list
is the concatenation of the per-function blocks in function order (so
every choice of function `i` precedes every choice of function `i+1`);
and a grouping-header spacer can never enter a selection, toggled or
not. -/
theorem c4_choice_count_and_order (fns : List FunctionDef)
    (ns : List (List String)) :
    selectableCount (buildChoices fns ns)
      = ((fns.enum).map (fun p =>
          1 + p.2.endpoints.length + (ns.getD p.1 []).length + p.2.events.length)).sum
    ∧ buildChoices fns ns
        = ((fns.enum).map (fun p => funcChoices ns p.1 p.2)).flatten
    ∧ ∀ (acc : SelectionResult) (s : String) (b : Bool),
        partitionStep acc (Choice.spacer s, b) = acc := by
  have key : ∀ (l : List FunctionDef) (i : Nat),
      selectableCount (buildChoicesAux ns i l)
        = ((l.enumFrom i).map (fun p =>
            1 + p.2.endpoints.length + (ns.getD p.1 []).length + p.2.events.length)).sum := by
    intro l
    induction l with
    | nil => intro i; simp [buildChoicesAux, selectableCount]
    | cons f rest ih =>
      intro i
      simp [buildChoicesAux, List.enumFrom, selectableCount_append,
        selectableCount_funcChoices, ih (i + 1)]
  refine ⟨key fns 0, buildChoicesAux_eq_flatten ns fns 0, ?_⟩
  intro acc s b
  cases b <;> rfl

/-- Toggled function choices, in original order (the partition loop
routes `type === "function"` values here; the removal flag cannot divert
them because the removal branch also requires `type === "endpoint"`). -/
def selectedFunctionsOf (items : List (Choice × Bool)) : List String :=
  items.filterMap fun it =>
    match it with
    | (Choice.item v _ ChoiceType.function _, true) => some v
    | _ => none

/-- Toggled non-removal endpoint choices, in original order. -/
def selectedEndpointsOf (items : List (Choice × Bool)) : List String :=
  items.filterMap fun it =>
    match it with
    | (Choice.item v _ ChoiceType.endpoint false, true) => some v
    | _ => none

/-- Toggled event choices, in original order. -/
def selectedEventsOf (items : List (Choice × Bool)) : List String :=
  items.filterMap fun it =>
    match it with
    | (Choice.item v _ ChoiceType.event _, true) => some v
    | _ => none

/-- Toggled removal-flagged endpoint choices, in original order. -/
def selectedRemovalEndpointsOf (items : List (Choice × Bool)) : List String :=
  items.filterMap fun it =>
    match it with
    | (Choice.item v _ ChoiceType.endpoint true, true) => some v
    | _ => none

/-- Generalised accumulator form of the partition loop. -/
theorem foldl_partitionStep (items : List (Choice × Bool)) :
    ∀ acc : SelectionResult,
      items.foldl partitionStep acc =
        ⟨acc.selectedFunctions ++ selectedFunctionsOf items,
         acc.selectedEndpoints ++ selectedEndpointsOf items,
         acc.selectedEvents ++ selectedEventsOf items,
         acc.selectedRemovalEndpoints ++ selectedRemovalEndpointsOf items⟩ := by
  induction items with
  | nil =>
    intro acc
    simp [selectedFunctionsOf, selectedEndpointsOf, selectedEventsOf,
      selectedRemovalEndpointsOf]
  | cons hd tl ih =>
    intro acc
    obtain ⟨c, b⟩ := hd
    cases b with
    | false =>
      simp [partitionStep, ih, selectedFunctionsOf, selectedEndpointsOf,
        selectedEventsOf, selectedRemovalEndpointsOf]
    | true =>
      cases c with
      | spacer s =>
        simp [partitionStep, ih, selectedFunctionsOf, selectedEndpointsOf,
          selectedEventsOf, selectedRemovalEndpointsOf]
      | item v lb t removal =>
        cases t <;> cases removal <;>
          simp [partitionStep, ih, selectedFunctionsOf, selectedEndpointsOf,
            selectedEventsOf, selectedRemovalEndpointsOf]

/-- The four output sequences together hold exactly the toggled
non-spacer items. -/
theorem selected_lengths (items : List (Choice × Bool)) :
    (selectedFunctionsOf items).length + (selectedEndpointsOf items).length
      + (selectedEventsOf items).length + (selectedRemovalEndpointsOf items).length
      = (items.filter (fun it => it.2 && !it.1.isSpacer)).length := by
  induction items with
  | nil =>
    simp [selectedFunctionsOf, selectedEndpointsOf, selectedEventsOf,
      selectedRemovalEndpointsOf]
  | cons hd tl ih =>
    obtain ⟨c, b⟩ := hd
    cases b with
    | false =>
      simpa [selectedFunctionsOf, selectedEndpointsOf, selectedEventsOf,
        selectedRemovalEndpointsOf] using ih
    | true =>
      cases c with
      | spacer s =>
        simpa [selectedFunctionsOf, selectedEndpointsOf, selectedEventsOf,
          selectedRemovalEndpointsOf] using ih
      | item v lb t removal =>
        cases t <;> cases removal <;>
          · simp only [selectedFunctionsOf, selectedEndpointsOf, selectedEventsOf,
              selectedRemovalEndpointsOf, List.filterMap_cons, List.filter_cons,
              isSpacer_item, Bool.not_false, Bool.and_self, List.length_cons,
              if_true, List.length_cons] at ih ⊢
            omega

/-- C5: the post-selection partition routes every toggled choice to
exactly one selected-* sequence — removal-flagged endpoint choices to
`selectedRemovalEndpoints`, non-removal function/endpoint/event choices
to their own sequence — non-toggled choices to none, each sequence in
the original choice order. -/
theorem c5_selection_partition (items : List (Choice × Bool)) :
    (partitionSelection items).selectedFunctions = selectedFunctionsOf items
    ∧ (partitionSelection items).selectedEndpoints = selectedEndpointsOf items
    ∧ (partitionSelection items).selectedEvents = selectedEventsOf items
    ∧ (partitionSelection items).selectedRemovalEndpoints
        = selectedRemovalEndpointsOf items
    ∧ (partitionSelection items).selectedFunctions.length
        + (partitionSelection items).selectedEndpoints.length
        + (partitionSelection items).selectedEvents.length
        + (partitionSelection items).selectedRemovalEndpoints.length
      = (items.filter (fun it => it.2 && !it.1.isSpacer)).length := by
  have h := foldl_partitionStep items emptySelection
  unfold partitionSelection
  rw [h]
  simp [emptySelection, selected_lengths items]

/-- C3: a local function with no deployed resource of its name yields an
empty orphan list at its position — the source iterates
`false.resourceMethods`, i.e. `undefined`, zero times, so the
computation short-circuits without throwing (the embedding is total). -/
theorem c3_no_resource_empty_orphans (funcs : List FunctionDef)
    (items : List DeployedResource) (i : Nat) (hi : i < funcs.length)
    (h : ∀ dr ∈ items, dr.pathPart ≠ (funcs.get ⟨i, hi⟩).name) :
    (_initNotExistEndpoints funcs items).getD i [] = [] := by
  rw [initNotExist_getD funcs items i hi]
  unfold funcNotExistEndpoints
  have hf : findDeployedResource items (funcs.get ⟨i, hi⟩).name = none := by
    unfold findDeployedResource
    rw [List.find?_eq_none]
    intro dr hdr
    simpa using h dr hdr
  rw [hf]

/-- Witness for C3: the function `posts` has no deployed resource in a
listing containing only `users`; its orphan list is empty. -/
theorem c3_no_resource_empty_orphans_witness :
    (_initNotExistEndpoints [⟨"posts", [], []⟩] [sampleResource]).getD 0 [] = [] :=
  c3_no_resource_empty_orphans [⟨"posts", [], []⟩] [sampleResource] 0
    (by decide) (by decide)

/-! ## Dispatcher stage lemmas -/

/-- A later stage whose guard finds an empty selection does nothing. -/
theorem runStage_guard_true (call : CallRecord) (res : Except SError ResultMap)
    (upd : DeployData → ResultMap → DeployData)
    (st : PromiseStatus × DeployData × List CallRecord) :
    runStage call res upd true st = st := by
  obtain ⟨s, d, tr⟩ := st
  cases s <;> simp [runStage]

/-- A later stage leaves the trace unchanged or appends exactly its own
call, the latter only when the guard found a non-empty selection. -/
theorem runStage_trace_cases (call : CallRecord) (res : Except SError ResultMap)
    (upd : DeployData → ResultMap → DeployData) (g : Bool)
    (st : PromiseStatus × DeployData × List CallRecord) :
    (runStage call res upd g st).2.2 = st.2.2 ∨
    ((runStage call res upd g st).2.2 = st.2.2 ++ [call] ∧ g = false) := by
  obtain ⟨s, d, tr⟩ := st
  cases s with
  | resolved =>
    cases g with
    | false => cases res <;> simp [runStage]
    | true => simp [runStage]
  | rejected e => simp [runStage]
  | pending => simp [runStage]

/-- The first stage's trace is empty or exactly its own call, the latter
only when the guard found a non-empty selection. -/
theorem runFirstStage_trace_cases (call : CallRecord)
    (res : Except SError ResultMap) (upd : DeployData → ResultMap → DeployData)
    (g : Bool) (d0 : DeployData) :
    ((runFirstStage call res upd g d0).2.2 = [] ∧ g = true) ∨
    ((runFirstStage call res upd g d0).2.2 = [call] ∧ g = false) := by
  cases g with
  | false => cases res <;> simp [runFirstStage]
  | true => simp [runFirstStage]

/-- A per-call property that holds of the incoming trace and of the
stage's own call (when the stage can fire) holds after the stage. -/
theorem mem_after_runStage {P : CallRecord → Prop} (call : CallRecord)
    (res : Except SError ResultMap) (upd : DeployData → ResultMap → DeployData)
    (g : Bool) (st : PromiseStatus × DeployData × List CallRecord)
    (hst : ∀ c ∈ st.2.2, P c) (hcall : g = false → P call) :
    ∀ c ∈ (runStage call res upd g st).2.2, P c := by
  intro c hc
  rcases runStage_trace_cases call res upd g st with h | ⟨h, hg⟩
  · rw [h] at hc
    exact hst c hc
  · rw [h] at hc
    rcases List.mem_append.1 hc with hc | hc
    · exact hst c hc
    · rw [List.mem_singleton] at hc
      subst hc
      exact hcall hg

/-- A per-call property of the first stage's own call (when it can fire)
holds of the first stage's whole trace. -/
theorem mem_after_runFirstStage {P : CallRecord → Prop} (call : CallRecord)
    (res : Except SError ResultMap) (upd : DeployData → ResultMap → DeployData)
    (g : Bool) (d0 : DeployData) (hcall : g = false → P call) :
    ∀ c ∈ (runFirstStage call res upd g d0).2.2, P c := by
  intro c hc
  rcases runFirstStage_trace_cases call res upd g d0 with ⟨h, _⟩ | ⟨h, hg⟩
  · rw [h] at hc
    cases hc
  · rw [h] at hc
    rw [List.mem_singleton] at hc
    subst hc
    exact hcall hg

/-- A data field a later stage's update does not touch is preserved. -/
theorem runStage_data_F {β : Type} (call : CallRecord)
    (res : Except SError ResultMap) (upd : DeployData → ResultMap → DeployData)
    (g : Bool) (st : PromiseStatus × DeployData × List CallRecord)
    (F : DeployData → β) (v : β) (hupd : ∀ d m, F (upd d m) = F d)
    (h : F st.2.1 = v) :
    F (runStage call res upd g st).2.1 = v := by
  obtain ⟨s, d, tr⟩ := st
  cases s with
  | resolved =>
    cases g with
    | false => cases res <;> simp_all [runStage, hupd]
    | true => simpa [runStage] using h
  | rejected e => simpa [runStage] using h
  | pending => simpa [runStage] using h

/-- A data field the first stage's update does not touch is preserved. -/
theorem runFirstStage_data_F {β : Type} (call : CallRecord)
    (res : Except SError ResultMap) (upd : DeployData → ResultMap → DeployData)
    (g : Bool) (d0 : DeployData) (F : DeployData → β)
    (hupd : ∀ d m, F (upd d m) = F d) :
    F (runFirstStage call res upd g d0).2.1 = F d0 := by
  cases g with
  | false => cases res <;> simp [runFirstStage, hupd]
  | true => simp [runFirstStage]

/-- Every call recorded by `_deploy` carries the run's stage and region
and, per external action, the matching selected-* sequence (necessarily
non-empty) and the `skipLocal` flag the source passes: absent for the
three deploys, `true` for endpoint removal. -/
theorem _deploy_calls_valid (acts : ExternalActions) (stage region : String)
    (sel : SelectionResult) (d0 : DeployData) :
    ∀ c ∈ (_deploy acts stage region sel d0).2.2,
      c.stage = stage ∧ c.region = region ∧
      (c.op = StageOp.functionDeploy →
        c.names = sel.selectedFunctions ∧ sel.selectedFunctions ≠ [] ∧
        c.skipLocal = none) ∧
      (c.op = StageOp.endpointDeploy →
        c.names = sel.selectedEndpoints ∧ sel.selectedEndpoints ≠ [] ∧
        c.skipLocal = none) ∧
      (c.op = StageOp.eventDeploy →
        c.names = sel.selectedEvents ∧ sel.selectedEvents ≠ [] ∧
        c.skipLocal = none) ∧
      (c.op = StageOp.endpointRemove →
        c.names = sel.selectedRemovalEndpoints ∧
        sel.selectedRemovalEndpoints ≠ [] ∧ c.skipLocal = some true) := by
  unfold _deploy
  refine mem_after_runStage _ _ _ _ _
    (mem_after_runStage _ _ _ _ _
      (mem_after_runStage _ _ _ _ _
        (mem_after_runFirstStage _ _ _ _ _ ?_) ?_) ?_) ?_
  · intro hg
    rw [List.isEmpty_eq_false] at hg
    exact ⟨rfl, rfl, fun _ => ⟨rfl, hg, rfl⟩, by simp, by simp, by simp⟩
  · intro hg
    rw [List.isEmpty_eq_false] at hg
    exact ⟨rfl, rfl, by simp, fun _ => ⟨rfl, hg, rfl⟩, by simp, by simp⟩
  · intro hg
    rw [List.isEmpty_eq_false] at hg
    exact ⟨rfl, rfl, by simp, by simp, fun _ => ⟨rfl, hg, rfl⟩, by simp⟩
  · intro hg
    rw [List.isEmpty_eq_false] at hg
    exact ⟨rfl, rfl, by simp, by simp, by simp, fun _ => ⟨rfl, hg, rfl⟩⟩

/-- C6: a stage whose selected-* sequence is empty never invokes its
external operation, and its outcome mapping in `evt.data` stays the
empty mapping it was initialised to (it is a field of the returned
record, so present and never null); only stages with non-empty
sequences can populate theirs. -/
theorem c6_empty_selection_skips_stage (acts : ExternalActions)
    (stage region : String) (sel : SelectionResult) :
    (sel.selectedFunctions = [] →
      (∀ c ∈ (_deploy acts stage region sel initialDeployData).2.2,
        c.op ≠ StageOp.functionDeploy) ∧
      (_deploy acts stage region sel initialDeployData).2.1.deployedFunctions = []) ∧
    (sel.selectedEndpoints = [] →
      (∀ c ∈ (_deploy acts stage region sel initialDeployData).2.2,
        c.op ≠ StageOp.endpointDeploy) ∧
      (_deploy acts stage region sel initialDeployData).2.1.deployedEndpoints = []) ∧
    (sel.selectedEvents = [] →
      (∀ c ∈ (_deploy acts stage region sel initialDeployData).2.2,
        c.op ≠ StageOp.eventDeploy) ∧
      (_deploy acts stage region sel initialDeployData).2.1.deployedEvents = []) ∧
    (sel.selectedRemovalEndpoints = [] →
      (∀ c ∈ (_deploy acts stage region sel initialDeployData).2.2,
        c.op ≠ StageOp.endpointRemove) ∧
      (_deploy acts stage region sel initialDeployData).2.1.removedEndpoints = []) := by
  refine ⟨fun hf => ⟨?_, ?_⟩, fun he => ⟨?_, ?_⟩, fun hv => ⟨?_, ?_⟩, fun hr => ⟨?_, ?_⟩⟩
  · intro c hc hop
    have h := _deploy_calls_valid acts stage region sel initialDeployData c hc
    exact (h.2.2.1 hop).2.1 hf
  · unfold _deploy
    refine runStage_data_F _ _ _ _ _ _ _ (fun d m => rfl) ?_
    refine runStage_data_F _ _ _ _ _ _ _ (fun d m => rfl) ?_
    refine runStage_data_F _ _ _ _ _ _ _ (fun d m => rfl) ?_
    rw [hf]
    simp [runFirstStage, initialDeployData]
  · intro c hc hop
    have h := _deploy_calls_valid acts stage region sel initialDeployData c hc
    exact (h.2.2.2.1 hop).2.1 he
  · unfold _deploy
    refine runStage_data_F _ _ _ _ _ _ _ (fun d m => rfl) ?_
    refine runStage_data_F _ _ _ _ _ _ _ (fun d m => rfl) ?_
    rw [he]
    simp only [List.isEmpty_nil]
    rw [runStage_guard_true]
    exact runFirstStage_data_F _ _ _ _ _ (fun d => d.deployedEndpoints) (fun d m => rfl)
  · intro c hc hop
    have h := _deploy_calls_valid acts stage region sel initialDeployData c hc
    exact (h.2.2.2.2.1 hop).2.1 hv
  · unfold _deploy
    refine runStage_data_F _ _ _ _ _ _ _ (fun d m => rfl) ?_
    rw [hv]
    simp only [List.isEmpty_nil]
    rw [runStage_guard_true]
    refine runStage_data_F _ _ _ _ _ _ _ (fun d m => rfl) ?_
    exact runFirstStage_data_F _ _ _ _ _ (fun d => d.deployedEvents) (fun d m => rfl)
  · intro c hc hop
    have h := _deploy_calls_valid acts stage region sel initialDeployData c hc
    exact (h.2.2.2.2.2 hop).2.1 hr
  · unfold _deploy
    rw [hr]
    simp only [List.isEmpty_nil]
    rw [runStage_guard_true]
    refine runStage_data_F _ _ _ _ _ _ _ (fun d m => rfl) ?_
    refine runStage_data_F _ _ _ _ _ _ _ (fun d m => rfl) ?_
    exact runFirstStage_data_F _ _ _ _ _ (fun d => d.removedEndpoints) (fun d m => rfl)

/-- Witness for C6: with selection `functions = [users]`, `endpoints =
[]`, the endpoint-deploy operation is never invoked and
`deployedEndpoints` stays the empty mapping. -/
theorem c6_empty_selection_skips_stage_witness :
    (∀ c ∈ (_deploy okActions "dev" "us-east-1"
        ⟨["users"], [], [], ["users~DELETE"]⟩ initialDeployData).2.2,
      c.op ≠ StageOp.endpointDeploy) ∧
    (_deploy okActions "dev" "us-east-1"
        ⟨["users"], [], [], ["users~DELETE"]⟩ initialDeployData).2.1.deployedEndpoints
      = [] :=
  (c6_empty_selection_skips_stage okActions "dev" "us-east-1"
    ⟨["users"], [], [], ["users~DELETE"]⟩).2.1 rfl

/-- A later stage keeps the op trace inside the growing stage order. -/
theorem sublist_after_runStage (call : CallRecord) (res : Except SError ResultMap)
    (upd : DeployData → ResultMap → DeployData) (g : Bool)
    (st : PromiseStatus × DeployData × List CallRecord) (L : List StageOp)
    (h : (st.2.2.map CallRecord.op).Sublist L) :
    ((runStage call res upd g st).2.2.map CallRecord.op).Sublist (L ++ [call.op]) := by
  rcases runStage_trace_cases call res upd g st with heq | ⟨heq, _⟩
  · rw [heq]
    exact h.trans (List.sublist_append_left L [call.op])
  · rw [heq]
    simpa using List.Sublist.append h (List.Sublist.refl [call.op])

/-- The first stage's op trace is at most its own op. -/
theorem sublist_after_runFirstStage (call : CallRecord)
    (res : Except SError ResultMap) (upd : DeployData → ResultMap → DeployData)
    (g : Bool) (d0 : DeployData) :
    ((runFirstStage call res upd g d0).2.2.map CallRecord.op).Sublist [call.op] := by
  rcases runFirstStage_trace_cases call res upd g d0 with ⟨heq, _⟩ | ⟨heq, _⟩
  · rw [heq]
    simp
  · rw [heq]
    simp only [List.map_cons, List.map_nil]
    exact List.Sublist.refl _

/-- A resolved later stage implies the chain was resolved coming in, and
its trace grew by exactly its guarded call. -/
theorem runStage_resolved (call : CallRecord) (res : Except SError ResultMap)
    (upd : DeployData → ResultMap → DeployData) (g : Bool)
    (st : PromiseStatus × DeployData × List CallRecord)
    (h : (runStage call res upd g st).1 = PromiseStatus.resolved) :
    st.1 = PromiseStatus.resolved ∧
    (runStage call res upd g st).2.2 = st.2.2 ++ (if g then [] else [call]) := by
  obtain ⟨s, d, tr⟩ := st
  cases s with
  | resolved =>
    cases g with
    | true => simp [runStage]
    | false =>
      cases res with
      | ok m => simp [runStage]
      | error e => simp [runStage] at h
  | rejected e => simp [runStage] at h
  | pending => simp [runStage] at h

/-- A resolved first stage produced exactly its guarded call. -/
theorem runFirstStage_resolved (call : CallRecord)
    (res : Except SError ResultMap) (upd : DeployData → ResultMap → DeployData)
    (g : Bool) (d0 : DeployData)
    (h : (runFirstStage call res upd g d0).1 = PromiseStatus.resolved) :
    (runFirstStage call res upd g d0).2.2 = (if g then [] else [call]) := by
  cases g with
  | true => simp [runFirstStage]
  | false =>
    cases res with
    | ok m => simp [runFirstStage]
    | error e => simp [runFirstStage] at h

/-- The external calls a resolved dispatch must have made, in order: one
per non-empty selected-* sequence. -/
def expectedOps (sel : SelectionResult) : List StageOp :=
  (if sel.selectedFunctions.isEmpty then [] else [StageOp.functionDeploy])
  ++ (if sel.selectedEndpoints.isEmpty then [] else [StageOp.endpointDeploy])
  ++ (if sel.selectedEvents.isEmpty then [] else [StageOp.eventDeploy])
  ++ (if sel.selectedRemovalEndpoints.isEmpty then [] else [StageOp.endpointRemove])

/-- C7: the dispatch trace follows the strict stage order function-
deploy, endpoint-deploy, event-deploy, endpoint-removal (each at most
once — the sequential promise chain starts no stage before the previous
one completed); a call occurs only when its emptiness guard passed, and
endpoint removal carries `skipLocal = true`; and a resolved dispatch
made exactly one call per non-empty selected-* sequence, in that
order. -/
theorem c7_four_stages_in_order (acts : ExternalActions) (stage region : String)
    (sel : SelectionResult) (d0 : DeployData) :
    ((_deploy acts stage region sel d0).2.2.map CallRecord.op).Sublist
      [StageOp.functionDeploy, StageOp.endpointDeploy, StageOp.eventDeploy,
        StageOp.endpointRemove]
    ∧ (∀ c ∈ (_deploy acts stage region sel d0).2.2,
        (c.op = StageOp.functionDeploy → sel.selectedFunctions ≠ []) ∧
        (c.op = StageOp.endpointDeploy → sel.selectedEndpoints ≠ []) ∧
        (c.op = StageOp.eventDeploy → sel.selectedEvents ≠ []) ∧
        (c.op = StageOp.endpointRemove →
          sel.selectedRemovalEndpoints ≠ [] ∧ c.skipLocal = some true))
    ∧ ((_deploy acts stage region sel d0).1 = PromiseStatus.resolved →
        (_deploy acts stage region sel d0).2.2.map CallRecord.op = expectedOps sel) := by
  refine ⟨?_, ?_, ?_⟩
  · unfold _deploy
    exact sublist_after_runStage _ _ _ _ _
      ([StageOp.functionDeploy] ++ [StageOp.endpointDeploy] ++ [StageOp.eventDeploy])
      (sublist_after_runStage _ _ _ _ _
        ([StageOp.functionDeploy] ++ [StageOp.endpointDeploy])
        (sublist_after_runStage _ _ _ _ _ [StageOp.functionDeploy]
          (sublist_after_runFirstStage _ _ _ _ _)))
  · intro c hc
    have h := _deploy_calls_valid acts stage region sel d0 c hc
    exact ⟨fun hop => (h.2.2.1 hop).2.1, fun hop => (h.2.2.2.1 hop).2.1,
      fun hop => (h.2.2.2.2.1 hop).2.1,
      fun hop => ⟨(h.2.2.2.2.2 hop).2.1, (h.2.2.2.2.2 hop).2.2⟩⟩
  · unfold _deploy
    intro hres
    obtain ⟨h3, e4⟩ := runStage_resolved _ _ _ _ _ hres
    obtain ⟨h2, e3⟩ := runStage_resolved _ _ _ _ _ h3
    obtain ⟨h1, e2⟩ := runStage_resolved _ _ _ _ _ h2
    have e1 := runFirstStage_resolved _ _ _ _ _ h1
    rw [e4, e3, e2, e1]
    unfold expectedOps
    cases hf : sel.selectedFunctions.isEmpty <;>
      cases he : sel.selectedEndpoints.isEmpty <;>
        cases hv : sel.selectedEvents.isEmpty <;>
          cases hr : sel.selectedRemovalEndpoints.isEmpty <;>
            simp [hf, he, hv, hr]

/-- Witness for C7: with functions and removal endpoints selected and
all actions succeeding, dispatch resolves after exactly the function-
deploy and endpoint-removal calls, in that order. -/
theorem c7_four_stages_in_order_witness :
    (_deploy okActions "dev" "us-east-1"
        ⟨["users"], [], [], ["users~DELETE"]⟩ initialDeployData).2.2.map CallRecord.op
      = expectedOps ⟨["users"], [], [], ["users~DELETE"]⟩ :=
  (c7_four_stages_in_order okActions "dev" "us-east-1"
    ⟨["users"], [], [], ["users~DELETE"]⟩ initialDeployData).2.2 (by rfl)

/-- C8: in a non-interactive execution context the run rejects
immediately with the interactivity error: the effect trace is empty (no
prompt, no remote call, no orphan computation, no dispatch call) and the
returned event still carries the untouched initial state, whose outcome
mappings are all empty and whose selection is empty. -/
theorem c8_not_interactive_rejects_before_effects (lf : List FunctionDef)
    (ps : Option String → String) (pr : Option String → String → String)
    (psel : List Choice → List (Choice × Bool)) (prov : ProviderEnv)
    (acts : ExternalActions) (opts : Options) :
    dashDeploy ⟨false, lf, ps, pr, psel, prov, acts⟩ opts
      = (PromiseStatus.rejected
            ⟨"Sorry, this is only available in interactive mode"⟩,
          initialEvtState opts, [])
    ∧ (initialEvtState opts).data = initialDeployData
    ∧ (initialEvtState opts).selection = emptySelection :=
  ⟨rfl, rfl, rfl⟩

/-- Flattening the pages of a listing recovers the listing. -/
theorem pagesAux_flatten {α : Type} (fuel : Nat) :
    ∀ (l : List α) (limit : Nat), l.length ≤ fuel → 0 < limit →
      (pagesAux fuel l limit).flatten = l := by
  induction fuel with
  | zero =>
    intro l limit hl _
    cases l with
    | nil => simp [pagesAux]
    | cons a as => simp at hl
  | succ n ih =>
    intro l limit hl hlim
    cases l with
    | nil => simp [pagesAux]
    | cons a as =>
      have hdrop : ((a :: as).drop limit).length ≤ n := by
        rw [List.length_drop]
        simp only [List.length_cons] at hl ⊢
        omega
      show ((a :: as).take limit :: pagesAux n ((a :: as).drop limit) limit).flatten
        = a :: as
      rw [List.flatten_cons, ih _ limit hdrop hlim, List.take_append_drop]

/-- Flattening the pages of a whole listing, at the listing's own
length as fuel, recovers the listing. -/
theorem pages_flatten {α : Type} (l : List α) (limit : Nat) (h : 0 < limit) :
    (pages l limit).flatten = l :=
  pagesAux_flatten l.length l limit (Nat.le_refl _) h

/-- Every page holds at most `limit` elements. -/
theorem pagesAux_page_le {α : Type} (fuel : Nat) :
    ∀ (l : List α) (limit : Nat), ∀ p ∈ pagesAux fuel l limit, p.length ≤ limit := by
  induction fuel with
  | zero =>
    intro l limit p hp
    simp [pagesAux] at hp
  | succ n ih =>
    intro l limit p hp
    cases l with
    | nil => simp [pagesAux] at hp
    | cons a as =>
      rcases List.mem_cons.1 hp with rfl | hp
      · rw [List.length_take]
        exact min_le_left _ _
      · exact ih _ limit p hp

/-- C9: `_getDeployedResources` resolves the REST API's logical name
from the region variable `apiGatewayApi`, falling back to the project
name when it is absent; resolves that name to a remote API id via
`getApiByName`; and retrieves the full deployed-resource collection of
the stage and region through the page-limited (500 per call) listing.
The paged listing is modelled from the spec (see `awsGetResources`): its
pages each hold at most 500 items and flatten back to the whole
collection. -/
theorem c9_fetch_deployed_resources (env : ProviderEnv) (stage region : String) :
    (env.apiGatewayApiVar stage region = none →
      resolvedRestApiName env stage region = env.projectName)
    ∧ (∀ v, env.apiGatewayApiVar stage region = some v → v ≠ "" →
        resolvedRestApiName env stage region = v)
    ∧ (∀ apiId,
        env.getApiByName (resolvedRestApiName env stage region) stage region
          = Except.ok apiId →
        env.listingFailure apiId = none →
        _getDeployedResources env stage region
          = Except.ok (env.remoteResources apiId stage region))
    ∧ (∀ l : List DeployedResource,
        (pages l 500).flatten = l ∧ ∀ p ∈ pages l 500, p.length ≤ 500) := by
  refine ⟨?_, ?_, ?_, ?_⟩
  · intro h
    simp [resolvedRestApiName, h]
  · intro v h hv
    simp [resolvedRestApiName, h, hv]
  · intro apiId hapi hfail
    unfold _getDeployedResources awsGetResources
    rw [hapi]
    simp only [hfail]
    rw [pages_flatten _ 500 (by omega)]
  · intro l
    exact ⟨pages_flatten l 500 (by omega),
      fun p hp => pagesAux_page_le _ _ 500 p hp⟩

/-- A provider environment for the witness: no region variable, project
`myapp` resolving to api id `api123`, one deployed resource. -/
def sampleProvider : ProviderEnv where
  apiGatewayApiVar := fun _ _ => none
  projectName := "myapp"
  getApiByName := fun n _ _ =>
    if n = "myapp" then Except.ok "api123" else Except.error ⟨"ProviderLookupError"⟩
  remoteResources := fun _ _ _ => [sampleResource]
  listingFailure := fun _ => none

/-- Witness for C9: with the variable absent the project name is used,
and the full one-resource listing is retrieved. -/
theorem c9_fetch_deployed_resources_witness :
    resolvedRestApiName sampleProvider "dev" "us-east-1" = "myapp"
    ∧ _getDeployedResources sampleProvider "dev" "us-east-1"
        = Except.ok [sampleResource] :=
  ⟨(c9_fetch_deployed_resources sampleProvider "dev" "us-east-1").1 rfl,
    (c9_fetch_deployed_resources sampleProvider "dev" "us-east-1").2.2.1 "api123"
      (by simp [sampleProvider, resolvedRestApiName]) rfl⟩

/-- C10: two invocations identical except in the `aliasFunction`,
`aliasEndpoint`, `aliasRestApi` and `description` options produce the
same settlement, choice list, selection partition, outcome data and
effect trace — the three aliases are normalized at entry (falsy becomes
null) and none of the four options is read by orphan detection, choice
building or dispatch. -/
theorem c10_alias_options_noninterference (env : Env)
    (stage region a1 e1 r1 d1 a2 e2 r2 d2 : Option String) :
    (dashDeploy env ⟨stage, region, a1, e1, r1, d1⟩).1
        = (dashDeploy env ⟨stage, region, a2, e2, r2, d2⟩).1
    ∧ (dashDeploy env ⟨stage, region, a1, e1, r1, d1⟩).2.1.choices
        = (dashDeploy env ⟨stage, region, a2, e2, r2, d2⟩).2.1.choices
    ∧ (dashDeploy env ⟨stage, region, a1, e1, r1, d1⟩).2.1.selection
        = (dashDeploy env ⟨stage, region, a2, e2, r2, d2⟩).2.1.selection
    ∧ (dashDeploy env ⟨stage, region, a1, e1, r1, d1⟩).2.1.data
        = (dashDeploy env ⟨stage, region, a2, e2, r2, d2⟩).2.1.data
    ∧ (dashDeploy env ⟨stage, region, a1, e1, r1, d1⟩).2.2
        = (dashDeploy env ⟨stage, region, a2, e2, r2, d2⟩).2.2
    ∧ (dashDeploy env ⟨stage, region, a1, e1, r1, d1⟩).2.1.aliasFunction
        = normalizeOpt a1
    ∧ (dashDeploy env ⟨stage, region, a1, e1, r1, d1⟩).2.1.aliasEndpoint
        = normalizeOpt e1
    ∧ (dashDeploy env ⟨stage, region, a1, e1, r1, d1⟩).2.1.aliasRestApi
        = normalizeOpt r1 := by
  unfold dashDeploy
  cases hI : env.interactive with
  | false => simp [initialEvtState]
  | true =>
    simp only [hI, Bool.not_true, Bool.false_eq_true, if_false, initialEvtState]
    cases hG : _getDeployedResources env.provider
        (env.promptStage (normalizeOpt stage))
        (env.promptRegion region (env.promptStage (normalizeOpt stage))) with
    | error e => simp
    | ok resources => simp

end DashDeploy
